import Mathlib

/-!
Verification development for the study-buddy application.

The definitions below are a shallow embedding of the quiz scoring and
session-analysis logic of `src/components/StudyChat.tsx` and of the
`school-student-approval` Supabase edge function.  JavaScript strings are
modelled as Lean `String` (`toLowerCase` as `jsToLower`, `trim` as
`jsTrim`), JavaScript numbers used as integers as `Int`/`Nat`, and the
floating-point expression `Math.round(x)` on a non-negative quotient as
`⌊x + 1/2⌋` over `ℚ`.  `Array.prototype.indexOf` (strict equality, `-1`
when absent) is `jsIndexOf`.  Optional / possibly-`undefined` values are
`Option`; the JavaScript truthiness test on a string is `truthyStr`.
-/

/-- JavaScript `toLowerCase`, modelled per character on the string's
character list (agrees with `String.toLower` but reduces in the kernel). -/
def jsToLower (s : String) : String := ⟨s.data.map Char.toLower⟩

/-- JavaScript `trim`: strip leading and trailing whitespace. -/
def jsTrim (s : String) : String :=
  ⟨((s.data.dropWhile Char.isWhitespace).reverse.dropWhile Char.isWhitespace).reverse⟩

/-- `s.toLowerCase().trim()`, the normalisation used by the quiz scorer. -/
def jsNormalize (s : String) : String := jsTrim (jsToLower s)

/-- `Array.prototype.indexOf`: index of the first exact match, `-1` if absent. -/
def jsIndexOf (l : List String) (s : String) : Int :=
  match l.findIdx? (fun x => x = s) with
  | some i => (i : Int)
  | none => -1

/-- `options.indexOf(userAnswers[i])` where the answer may be `undefined`
(out of range): `indexOf(undefined)` on a string array returns `-1`. -/
def optIndexOf (opts : List String) (a : Option String) : Int :=
  match a with
  | some s => jsIndexOf opts s
  | none => -1

/-- JavaScript truthiness of a possibly-`undefined` string: `undefined`
and the empty string are falsy. -/
def truthyStr (o : Option String) : Bool :=
  match o with
  | some s => s ≠ ""
  | none => false

/-- `a || b` on a possibly-`undefined` string `a` with string default `b`. -/
def jsOrString (a : Option String) (b : String) : String :=
  match a with
  | some s => if s = "" then b else s
  | none => b

/-- `Math.round` on a non-negative rational: round half up. -/
def jsRound (q : ℚ) : Int := ⌊q + 1/2⌋

/-- Question type tag of `QuizQuestion.type` in `StudyChat.tsx`. -/
inductive QType where
  | mcq
  | true_false
  | fill_blank
  | short_answer
deriving DecidableEq, Repr

/-- `QuizQuestion` from `StudyChat.tsx`: `options` is optional. -/
structure QuizQuestion where
  id : Int
  qtype : QType
  question : String
  options : Option (List String)
  correct_answer : String
  explanation : String
  difficulty : String
  topic : String
deriving DecidableEq, Repr

/-- Correctness test of one submitted answer against one question, from the
body of the `forEach` in `calculateQuizResults` (`StudyChat.tsx` lines
404–409): case-insensitive trimmed equality, or — whenever an `options`
array is present — equality of `options.indexOf(rawAnswer)` with
`loweredOptions.indexOf(loweredTrimmedCorrect)`.  The answer is `none`
when the answers array is shorter than the questions array. -/
def answerCorrect (q : QuizQuestion) (a : Option String) : Bool :=
  let userAnswer : Option String := a.map jsNormalize
  let correctAnswer : String := jsNormalize q.correct_answer
  if userAnswer = some correctAnswer then true
  else
    match q.options with
    | some opts =>
        if optIndexOf opts a = jsIndexOf (opts.map jsToLower) correctAnswer
        then true else false
    | none => false

/-- The `correctCount` accumulation of `calculateQuizResults`
(`StudyChat.tsx` lines 402–410): a fold over the questions with their
indices, looking the answer up by index. -/
def calcCorrectCount (questions : List QuizQuestion) (answers : List String) : Nat :=
  questions.enum.foldl
    (fun cc p => if answerCorrect p.2 answers[p.1]? then cc + 1 else cc) 0

/-- The understanding verdict from `accuracy` (`StudyChat.tsx` lines
415–417). -/
def understandingOf (accuracy : Int) : String :=
  if accuracy ≥ 70 then "strong"
  else if accuracy ≥ 40 then "partial"
  else "weak"

/-- The `quizResult` record passed to `onEndStudy`. -/
structure QuizResult where
  correctCount : Nat
  totalQuestions : Nat
  accuracy : Int
  understanding : String
  questions : List QuizQuestion
  answers : List String
deriving DecidableEq, Repr

/-- `calculateQuizResults` (`StudyChat.tsx` lines 401–447), restricted to
the data it computes: correct count, accuracy
`Math.round((correctCount / quizQuestions.length) * 100)`, and verdict. -/
def calculateQuizResults (questions : List QuizQuestion) (answers : List String) :
    QuizResult :=
  let correctCount := calcCorrectCount questions answers
  let accuracy := jsRound (((correctCount : ℚ) / (questions.length : ℚ)) * 100)
  { correctCount := correctCount
    totalQuestions := questions.length
    accuracy := accuracy
    understanding := understandingOf accuracy
    questions := questions
    answers := answers }

/-- JavaScript `[...new Set(l)]`: deduplicate, keeping first occurrences in
order. -/
def jsSetDedup (l : List String) : List String :=
  l.foldl (fun acc x => if x ∈ acc then acc else acc ++ [x]) []

/-- The `RealTimeAnalysis` state of `StudyChat.tsx` (initial value:
empty lists and `"average"`). -/
structure RealTimeAnalysis where
  weakAreas : List String
  strongAreas : List String
  currentUnderstanding : String
  topicsCovered : List String
deriving DecidableEq, Repr

/-- The `sessionAnalysis` payload of a study-chat response; every field may
be absent. -/
structure SessionAnalysisMsg where
  weakAreas : Option (List String)
  strongAreas : Option (List String)
  understanding : Option String
  topics : Option (List String)
deriving DecidableEq, Repr

/-- The `setAnalysis` update in `getAIResponse` (`StudyChat.tsx` lines
207–214): spread previous and reported lists into a `Set`, and take
`understanding || prev.currentUnderstanding`. -/
def mergeAnalysis (prev : RealTimeAnalysis) (sa : SessionAnalysisMsg) : RealTimeAnalysis :=
  { weakAreas := jsSetDedup (prev.weakAreas ++ sa.weakAreas.getD [])
    strongAreas := jsSetDedup (prev.strongAreas ++ sa.strongAreas.getD [])
    currentUnderstanding := jsOrString sa.understanding prev.currentUnderstanding
    topicsCovered := jsSetDedup (prev.topicsCovered ++ sa.topics.getD []) }

/-- One assistant turn: the merge runs only when the response carries a
`sessionAnalysis` object (`if (data?.sessionAnalysis)`). -/
def applyAssistantTurn (prev : RealTimeAnalysis) (sa : Option SessionAnalysisMsg) :
    RealTimeAnalysis :=
  match sa with
  | some m => mergeAnalysis prev m
  | none => prev

/-- A sequence of assistant turns applied in order. -/
def applyTurns (init : RealTimeAnalysis) (turns : List (Option SessionAnalysisMsg)) :
    RealTimeAnalysis :=
  turns.foldl applyAssistantTurn init

/-- Quiz-mode component state: the pieces of `StudyChat.tsx` state that the
quiz walk reads and writes. -/
structure QuizState where
  questions : List QuizQuestion
  currentQuestionIndex : Nat
  userAnswers : List String
  showExplanation : Bool
  showResult : Bool
deriving DecidableEq, Repr

/-- State on entering quiz mode (`handleEndStudyClick` success branch):
index 0, no answers, no explanation, no result. -/
def initQuizState (qs : List QuizQuestion) : QuizState :=
  { questions := qs
    currentQuestionIndex := 0
    userAnswers := []
    showExplanation := false
    showResult := false }

/-- A learner interaction in quiz mode: submitting an answer
(`handleQuizAnswer`) or pressing Next / See Results (`handleNextQuestion`). -/
inductive QuizEvent where
  | answer (a : String)
  | next
deriving DecidableEq, Repr

/-- One quiz-mode step.  The quiz UI is rendered only while
`isQuizMode && currentQuestion && !showResult`; answer buttons are disabled
once `showExplanation` is set, and the Next button is rendered only while
`showExplanation` is set — those reachability guards are part of the step
function.  `handleQuizAnswer` appends the answer and shows the explanation;
`handleNextQuestion` either advances the index or, on the last question,
computes the results (`showResult := true`). -/
def quizStep (s : QuizState) (e : QuizEvent) : QuizState :=
  if s.showResult = true ∨ s.questions.length ≤ s.currentQuestionIndex then s
  else
    match e with
    | .answer a =>
        if s.showExplanation = true then s
        else { s with userAnswers := s.userAnswers ++ [a], showExplanation := true }
    | .next =>
        if s.showExplanation = true then
          if s.currentQuestionIndex < s.questions.length - 1 then
            { s with currentQuestionIndex := s.currentQuestionIndex + 1,
                     showExplanation := false }
          else
            { s with showExplanation := false, showResult := true }
        else s

/-- A run of quiz mode: fold the interactions over the initial state. -/
def runQuiz (qs : List QuizQuestion) (events : List QuizEvent) : QuizState :=
  events.foldl quizStep (initQuizState qs)

/-- Message role in the chat transcript. -/
inductive ChatRole where
  | user
  | assistant
deriving DecidableEq, Repr

/-- `ChatMessage` from `StudyChat.tsx`; the timestamp is modelled as epoch
milliseconds. -/
structure ChatMessage where
  id : String
  role : ChatRole
  content : String
  timestampMs : Int
  imageUrl : Option String
deriving DecidableEq, Repr

/-- The summary passed to `onEndStudy`; `quizResult` is optional and absent
when the session ends without a quiz. -/
structure StudySummary where
  topic : String
  timeSpent : Int
  messages : List ChatMessage
  analysis : RealTimeAnalysis
  quizResult : Option QuizResult
deriving DecidableEq, Repr

/-- `finishStudySession` (`StudyChat.tsx` lines 461–469): topic defaulted by
`currentTopic || "General Study"`, time spent in whole minutes
(`Math.max(Math.round(ms / 60000), 1)`), and no `quizResult` field. -/
def finishStudySession (topic : String) (nowMs startMs : Int)
    (messages : List ChatMessage) (analysis : RealTimeAnalysis) : StudySummary :=
  { topic := jsOrString (some topic) "General Study"
    timeSpent := max (jsRound (((nowMs - startMs : Int) : ℚ) / 60000)) 1
    messages := messages
    analysis := analysis
    quizResult := none }

/-- `data.quiz` of a `generate-quiz` response: `questions` may be absent. -/
structure GeneratedQuiz where
  questions : Option (List QuizQuestion)
deriving DecidableEq, Repr

/-- `data` of a `generate-quiz` response. -/
structure GenerateQuizData where
  success : Bool
  quiz : Option GeneratedQuiz
deriving DecidableEq, Repr

/-- Outcome of pressing End Study: either quiz mode starts with the
generated questions, or the session ends at once with a summary. -/
inductive EndStudyOutcome where
  | enterQuiz (questions : List QuizQuestion)
  | endSession (summary : StudySummary)
deriving DecidableEq, Repr

/-- The guard `data?.success && data?.quiz?.questions?.length > 0` of
`handleEndStudyClick`; an `Except.error` models a thrown/invoke error. -/
def quizAvailable : Except String (Option GenerateQuizData) → Bool
  | .error _ => false
  | .ok none => false
  | .ok (some d) =>
      d.success &&
        match d.quiz with
        | some qz =>
            match qz.questions with
            | some qs => decide (0 < qs.length)
            | none => false
        | none => false

/-- `handleEndStudyClick` (`StudyChat.tsx` lines 336–379): on a successful
non-empty quiz enter quiz mode, otherwise — including the catch branch —
end the session directly via `finishStudySession`. -/
def handleEndStudyClick (resp : Except String (Option GenerateQuizData))
    (topic : String) (nowMs startMs : Int) (messages : List ChatMessage)
    (analysis : RealTimeAnalysis) : EndStudyOutcome :=
  match resp with
  | .error _ => .endSession (finishStudySession topic nowMs startMs messages analysis)
  | .ok data =>
      match data with
      | some d =>
          if d.success then
            match d.quiz with
            | some qz =>
                match qz.questions with
                | some qs =>
                    if 0 < qs.length then .enterQuiz qs
                    else .endSession
                      (finishStudySession topic nowMs startMs messages analysis)
                | none => .endSession
                    (finishStudySession topic nowMs startMs messages analysis)
            | none => .endSession
                (finishStudySession topic nowMs startMs messages analysis)
          else .endSession (finishStudySession topic nowMs startMs messages analysis)
      | none => .endSession (finishStudySession topic nowMs startMs messages analysis)

/-- A row of the `schools` table, as selected by the approval function. -/
structure SchoolRec where
  id : String
  school_id : String
  name : String
  password_hash : String
deriving DecidableEq, Repr

/-- A row of the `students` table, restricted to the columns the approval
function reads or writes. -/
structure StudentRec where
  id : String
  school_id : String
  is_approved : Bool
  approved_at : Option String
  rejection_reason : Option String
deriving DecidableEq, Repr

/-- The parsed JSON body of a `school-student-approval` request; any field
may be absent. -/
structure ApprovalRequest where
  action : Option String
  schoolId : Option String
  schoolPassword : Option String
  studentId : Option String
  rejectionReason : Option String
deriving DecidableEq, Repr

/-- Backend state visible to the approval function. -/
structure Db where
  schools : List SchoolRec
  students : List StudentRec
deriving DecidableEq, Repr

/-- An approval response: HTTP status, and the `success` / `error` /
`status` fields of the JSON body (`result` models the body's `status`
string, `"approved"` or `"rejected"`). -/
structure ApiResponse where
  status : Nat
  success : Bool
  error : Option String
  result : Option String
deriving DecidableEq, Repr

/-- `maybeSingle()`: `none` for zero matching rows, the row for one, and an
error for several. -/
def maybeSingle {α : Type} (l : List α) : Except Unit (Option α) :=
  match l with
  | [] => .ok none
  | [a] => .ok (some a)
  | _ => .error ()

/-- The approve update: `is_approved := true`, `approved_at := now`,
`rejection_reason := null`. -/
def approveStudent (now : String) (st : StudentRec) : StudentRec :=
  { st with is_approved := true, approved_at := some now, rejection_reason := none }

/-- The reject update: `is_approved := false` and the trimmed, defaulted
reason. -/
def rejectStudent (reason : String) (st : StudentRec) : StudentRec :=
  { st with is_approved := false, rejection_reason := some reason }

/-- The `school-student-approval` handler
(`supabase/functions/school-student-approval/index.ts` lines 17–142) as a
function of the request and backend state.  `envOk` models the presence of
the two backend environment variables; backend update calls are modelled as
succeeding, so the two update-error 500 branches are unreachable here. -/
def schoolApprovalHandler (envOk : Bool) (db : Db) (req : ApprovalRequest)
    (now : String) : ApiResponse × Db :=
  if !(truthyStr req.action && truthyStr req.schoolId &&
       truthyStr req.schoolPassword && truthyStr req.studentId) then
    ({ status := 400, success := false, error := some "Missing required fields",
       result := none }, db)
  else if !envOk then
    ({ status := 500, success := false, error := some "Backend configuration error",
       result := none }, db)
  else
    match maybeSingle (db.schools.filter fun s =>
        some s.school_id = req.schoolId && some s.password_hash = req.schoolPassword) with
    | .error _ =>
        ({ status := 500, success := false, error := some "School validation failed",
           result := none }, db)
    | .ok none =>
        ({ status := 401, success := false, error := some "Invalid school credentials",
           result := none }, db)
    | .ok (some school) =>
        match maybeSingle (db.students.filter fun st => some st.id = req.studentId) with
        | .error _ =>
            ({ status := 500, success := false, error := some "Student lookup failed",
               result := none }, db)
        | .ok none =>
            ({ status := 404, success := false,
               error := some "Student not found for this school", result := none }, db)
        | .ok (some student) =>
            if student.school_id ≠ school.id then
              ({ status := 404, success := false,
                 error := some "Student not found for this school", result := none }, db)
            else if req.action = some "approve" then
              ({ status := 200, success := true, error := none,
                 result := some "approved" },
               { db with students := db.students.map fun st =>
                   if some st.id = req.studentId then approveStudent now st else st })
            else
              let reason := jsTrim (jsOrString req.rejectionReason "No reason provided")
              ({ status := 200, success := true, error := none,
                 result := some "rejected" },
               { db with students := db.students.map fun st =>
                   if some st.id = req.studentId then rejectStudent reason st else st })

/-- The spec's reading of the per-answer correctness test, for comparison
with `answerCorrect`: case-insensitive trimmed string equality, or — for a
multiple-choice question with an options array — the submitted answer is
found among the options case-insensitively at the same index at which the
correct answer is found case-insensitively. -/
def answerCorrectClaim (q : QuizQuestion) (a : Option String) : Bool :=
  decide (a.map jsNormalize = some (jsNormalize q.correct_answer)) ||
    match q.qtype, q.options, a with
    | .mcq, some opts, some s =>
        let lopts := opts.map jsToLower
        decide (0 ≤ jsIndexOf lopts (jsToLower s)) &&
          decide (jsIndexOf lopts (jsToLower s) = jsIndexOf lopts (jsNormalize q.correct_answer))
    | _, _, _ => false

/-- The correct count as the spec's claim describes it. -/
def claimCorrectCount (questions : List QuizQuestion) (answers : List String) : Nat :=
  questions.enum.countP (fun p => answerCorrectClaim p.2 answers[p.1]?)

/-- A short-answer question with a given id and correct answer, for concrete
scenarios. -/
def mkShortQ (i : Int) (a : String) : QuizQuestion :=
  { id := i, qtype := .short_answer, question := "q", options := none,
    correct_answer := a, explanation := "", difficulty := "easy", topic := "t" }

/-- The five questions of the 4-correct-out-of-5 scenario. -/
def scenarioQuestions : List QuizQuestion :=
  [mkShortQ 1 "a", mkShortQ 2 "b", mkShortQ 3 "c", mkShortQ 4 "d", mkShortQ 5 "e"]

/-- Answers matching the first four scenario questions only. -/
def scenarioAnswers : List String := ["a", "b", "c", "d", "x"]

/-- A multiple-choice question whose correct answer is not among its
options: the scorer's index fallback compares `-1` with `-1` on it. -/
def fallbackQ : QuizQuestion :=
  { id := 1, qtype := .mcq, question := "q", options := some ["Alpha"],
    correct_answer := "Zeta", explanation := "", difficulty := "easy", topic := "t" }

/-- Inductive invariant of quiz mode: the question list is fixed, the
answers never outnumber the questions, and while the result screen is not
shown the answer count is the current index plus one exactly when the
current question has been answered. -/
def QuizInv (qs : List QuizQuestion) (s : QuizState) : Prop :=
  s.questions = qs ∧
  s.userAnswers.length ≤ qs.length ∧
  (s.showResult = false →
    s.currentQuestionIndex < qs.length ∧
    s.userAnswers.length =
      s.currentQuestionIndex + (if s.showExplanation = true then 1 else 0))

/-- A school record used in concrete approval scenarios. -/
def wSchool : SchoolRec :=
  { id := "uuid-1", school_id := "SCH-1", name := "Green Valley", password_hash := "secret" }

/-- A student of `wSchool` used in concrete approval scenarios. -/
def wStudent : StudentRec :=
  { id := "stu-1", school_id := "uuid-1", is_approved := false,
    approved_at := none, rejection_reason := some "old" }

/-- A one-school, one-student backend state. -/
def wDb : Db := { schools := [wSchool], students := [wStudent] }

/-- A well-formed approve request with the right credentials. -/
def wApprove : ApprovalRequest :=
  { action := some "approve", schoolId := some "SCH-1",
    schoolPassword := some "secret", studentId := some "stu-1",
    rejectionReason := none }

/-- A well-formed approve request with a wrong password. -/
def wBadPw : ApprovalRequest :=
  { action := some "approve", schoolId := some "SCH-1",
    schoolPassword := some "wrong", studentId := some "stu-1",
    rejectionReason := none }

/-- A concrete analysis state with one weak area and one topic. -/
def wAnalysis : RealTimeAnalysis :=
  { weakAreas := ["algebra"], strongAreas := [],
    currentUnderstanding := "average", topicsCovered := ["maths"] }

/-- A concrete reported session analysis. -/
def wMsg : SessionAnalysisMsg :=
  { weakAreas := some ["trigonometry"], strongAreas := some ["geometry"],
    understanding := some "good", topics := some ["maths", "trigonometry"] }

/-- A `generate-quiz` response that succeeded but carries an empty question
list. -/
def wEmptyQuizResp : Except String (Option GenerateQuizData) :=
  .ok (some { success := true, quiz := some { questions := some [] } })

/-- A one-message transcript. -/
def wMessages : List ChatMessage :=
  [{ id := "1", role := .assistant, content := "hi", timestampMs := 0, imageUrl := none }]

/-- `jsRound q = n` once `n ≤ q + 1/2 < n + 1`. -/
theorem jsRound_eq_of (q : ℚ) (n : ℤ) (h1 : (n : ℚ) ≤ q + 1/2) (h2 : q + 1/2 < n + 1) :
    jsRound q = n :=
  Int.floor_eq_iff.mpr ⟨h1, h2⟩

/-- `jsRound` lands within a half of its argument: it picks a nearest integer. -/
theorem jsRound_near (q : ℚ) : |(jsRound q : ℚ) - q| ≤ 1/2 := by
  rw [abs_le]
  have h1 := Int.floor_le (q + 1/2)
  have h2 := Int.lt_floor_add_one (q + 1/2)
  constructor <;> [skip; skip] <;>
    simp only [jsRound] <;> push_cast at h1 h2 ⊢ <;> linarith

/-- A conditional-increment fold computes the accumulator plus a `countP`. -/
theorem foldl_count_eq {α : Type} (p : α → Bool) (l : List α) (n : Nat) :
    l.foldl (fun cc x => if p x then cc + 1 else cc) n = n + l.countP p := by
  induction l generalizing n with
  | nil => simp
  | cons x xs ih =>
    cases hx : p x <;> (simp [List.countP_cons, hx, ih]; try omega)

/-- The scorer's fold is a `countP` over the enumerated questions. -/
theorem calcCorrectCount_eq_countP (qs : List QuizQuestion) (ans : List String) :
    calcCorrectCount qs ans =
      qs.enum.countP (fun p => answerCorrect p.2 ans[p.1]?) := by
  unfold calcCorrectCount
  simpa using foldl_count_eq (fun p => answerCorrect p.2 ans[p.1]?) qs.enum 0

/-- `answerCorrect` written as one boolean expression. -/
theorem answerCorrect_eq_bool (q : QuizQuestion) (a : Option String) :
    answerCorrect q a =
      (decide (a.map jsNormalize = some (jsNormalize q.correct_answer)) ||
        match q.options with
        | some opts =>
            decide (optIndexOf opts a =
              jsIndexOf (opts.map jsToLower) (jsNormalize q.correct_answer))
        | none => false) := by
  rcases ho : q.options with _ | opts <;>
    by_cases h : a.map jsNormalize = some (jsNormalize q.correct_answer)
  · simp [answerCorrect, ho, h]
  · simp [answerCorrect, ho, h]
  · simp [answerCorrect, ho, h]
  · by_cases h2 : optIndexOf opts a =
        jsIndexOf (opts.map jsToLower) (jsNormalize q.correct_answer) <;>
      simp [answerCorrect, ho, h, h2]

/-- Propositional characterisation of `answerCorrect`. -/
theorem answerCorrect_iff (q : QuizQuestion) (a : Option String) :
    answerCorrect q a = true ↔
      (a.map jsNormalize = some (jsNormalize q.correct_answer) ∨
        ∃ opts, q.options = some opts ∧
          optIndexOf opts a =
            jsIndexOf (opts.map jsToLower) (jsNormalize q.correct_answer)) := by
  rw [answerCorrect_eq_bool]
  rcases ho : q.options with _ | opts <;> simp [ho]

/-- The scorer's count, as a count over question indices. -/
theorem calcCorrectCount_eq_range (qs : List QuizQuestion) (ans : List String) :
    calcCorrectCount qs ans =
      (List.range qs.length).countP (fun i =>
        match qs[i]? with
        | some q =>
            decide ((ans[i]?).map jsNormalize = some (jsNormalize q.correct_answer)) ||
              match q.options with
              | some opts =>
                  decide (optIndexOf opts ans[i]? =
                    jsIndexOf (opts.map jsToLower) (jsNormalize q.correct_answer))
              | none => false
        | none => false) := by
  rw [calcCorrectCount_eq_countP,
    show List.range qs.length = qs.enum.map Prod.fst from (List.enum_map_fst qs).symm,
    List.countP_map]
  apply List.countP_congr
  intro p hp
  have h1 : qs[p.1]? = some p.2 := by
    have := List.mem_enum_iff_getElem?.mp hp
    exact this
  simp only [Function.comp, h1, answerCorrect_eq_bool]

/-- C1 counterexample: on a multiple-choice question whose options are
`["Alpha"]` and whose correct answer is `"Zeta"`, the submitted answer
`"alpha"` is counted correct by the code (both `indexOf` lookups return
`-1`), while under the claim's case-insensitive option-index reading it is
not correct — so the claimed count and the computed count differ. -/
theorem correctCount_claim_counterexample :
    calcCorrectCount [fallbackQ] ["alpha"] = 1 ∧
      claimCorrectCount [fallbackQ] ["alpha"] = 0 ∧
      calcCorrectCount [fallbackQ] ["alpha"] ≠ claimCorrectCount [fallbackQ] ["alpha"] := by
  refine ⟨?_, ?_, ?_⟩ <;> decide

/-- C1 (amended): the computed `correctCount` equals the number of question
indices `i` at which either the submitted answer equals the correct answer
after lowercasing and trimming, or the question has an options array and
`options.indexOf(rawSubmittedAnswer)` — case-sensitive, `-1` when absent or
unanswered — equals `loweredOptions.indexOf(loweredTrimmedCorrectAnswer)`;
in particular two failed lookups (`-1 = -1`) count as correct. -/
theorem correctCount_characterization (qs : List QuizQuestion) (ans : List String) :
    calcCorrectCount qs ans =
      (List.range qs.length).countP (fun i =>
        match qs[i]? with
        | some q =>
            decide ((ans[i]?).map jsNormalize = some (jsNormalize q.correct_answer)) ||
              match q.options with
              | some opts =>
                  decide (optIndexOf opts ans[i]? =
                    jsIndexOf (opts.map jsToLower) (jsNormalize q.correct_answer))
              | none => false
        | none => false) :=
  calcCorrectCount_eq_range qs ans

/-- C9: appending an answer that matches the next question's correct answer
(case-insensitively, after trimming) never decreases the computed correct
count. -/
theorem correctCount_monotone (qs : List QuizQuestion) (ans : List String) (a : String)
    (h : ∀ q, qs[ans.length]? = some q →
      jsNormalize a = jsNormalize q.correct_answer) :
    calcCorrectCount qs ans ≤ calcCorrectCount qs (ans ++ [a]) := by
  rw [calcCorrectCount_eq_countP, calcCorrectCount_eq_countP]
  apply List.countP_mono_left
  intro p hp hcorrect
  rcases lt_trichotomy p.1 ans.length with hlt | heq | hgt
  · rwa [List.getElem?_append_left hlt]
  · have hq : qs[p.1]? = some p.2 := by
      have := List.mem_enum_iff_getElem?.mp hp
      exact this
    have ha := h p.2 (by rwa [heq] at hq)
    rw [heq, List.getElem?_concat_length, answerCorrect_iff]
    exact Or.inl (by simp [ha])
  · have hnone : (ans ++ [a])[p.1]? = none :=
      List.getElem?_eq_none (by simp; omega)
    rw [hnone]
    rwa [List.getElem?_eq_none (le_of_lt hgt)] at hcorrect

/-- Witness for C9 at a concrete quiz: two answers extended by the correct
third answer. -/
theorem correctCount_monotone_witness :
    calcCorrectCount scenarioQuestions ["a", "b"] ≤
      calcCorrectCount scenarioQuestions (["a", "b"] ++ ["c"]) :=
  correctCount_monotone scenarioQuestions ["a", "b"] "c"
    (by
      intro q hq
      have h2 : scenarioQuestions[([ "a", "b" ] : List String).length]? =
          some (mkShortQ 3 "c") := rfl
      rw [h2, Option.some.injEq] at hq
      subst hq
      decide)

/-- C2: for every accuracy in `[0, 100]` the verdict is `"strong"` iff
accuracy ≥ 70, `"partial"` iff 40 ≤ accuracy < 70 and `"weak"` iff
accuracy < 40; and the concrete 4-correct-out-of-5 quiz yields accuracy 80
and verdict `"strong"`. -/
theorem understanding_verdict_thresholds (accuracy : Int)
    (h0 : 0 ≤ accuracy) (h100 : accuracy ≤ 100) :
    (understandingOf accuracy = "strong" ↔ 70 ≤ accuracy) ∧
    (understandingOf accuracy = "partial" ↔ 40 ≤ accuracy ∧ accuracy < 70) ∧
    (understandingOf accuracy = "weak" ↔ accuracy < 40) ∧
    (calculateQuizResults scenarioQuestions scenarioAnswers).accuracy = 80 ∧
    (calculateQuizResults scenarioQuestions scenarioAnswers).understanding = "strong" := by
  have hacc : (calculateQuizResults scenarioQuestions scenarioAnswers).accuracy = 80 := by
    have h1 : (calculateQuizResults scenarioQuestions scenarioAnswers).accuracy =
        jsRound (((calcCorrectCount scenarioQuestions scenarioAnswers : ℚ) /
          (scenarioQuestions.length : ℚ)) * 100) := rfl
    have hc : calcCorrectCount scenarioQuestions scenarioAnswers = 4 := by decide
    have hlen : scenarioQuestions.length = 5 := rfl
    rw [h1, hc, hlen]
    apply jsRound_eq_of <;> norm_num
  have hund : (calculateQuizResults scenarioQuestions scenarioAnswers).understanding =
      understandingOf ((calculateQuizResults scenarioQuestions scenarioAnswers).accuracy) :=
    rfl
  refine ⟨?_, ?_, ?_, hacc, ?_⟩
  · unfold understandingOf
    by_cases h70 : 70 ≤ accuracy
    · simp [if_pos h70, h70]
    · rw [if_neg (by omega : ¬ accuracy ≥ 70)]
      by_cases h40 : accuracy ≥ 40 <;> (simp [h40]; try omega)
  · unfold understandingOf
    by_cases h70 : accuracy ≥ 70
    · simp [if_pos h70]
      omega
    · rw [if_neg h70]
      by_cases h40 : accuracy ≥ 40 <;> (simp [h40]; try omega)
  · unfold understandingOf
    by_cases h70 : accuracy ≥ 70
    · simp [if_pos h70]
      omega
    · rw [if_neg h70]
      by_cases h40 : accuracy ≥ 40 <;> (simp [h40]; try omega)
  · rw [hund, hacc]
    decide

/-- Witness for C2 at accuracy 80. -/
theorem understanding_verdict_thresholds_witness :
    (understandingOf 80 = "strong" ↔ 70 ≤ (80 : Int)) ∧
    (understandingOf 80 = "partial" ↔ 40 ≤ (80 : Int) ∧ (80 : Int) < 70) ∧
    (understandingOf 80 = "weak" ↔ (80 : Int) < 40) ∧
    (calculateQuizResults scenarioQuestions scenarioAnswers).accuracy = 80 ∧
    (calculateQuizResults scenarioQuestions scenarioAnswers).understanding = "strong" :=
  understanding_verdict_thresholds 80 (by decide) (by decide)

/-- C3: for a non-empty question list, the reported accuracy is
`Math.round(100 · correctCount / totalQuestions)`, and so lies within one
half of the exact percentage — it is the percentage rounded to the nearest
integer. -/
theorem accuracy_is_rounded_percent (qs : List QuizQuestion) (ans : List String)
    (h : qs ≠ []) :
    (calculateQuizResults qs ans).accuracy =
      jsRound ((((calculateQuizResults qs ans).correctCount : ℚ) /
        ((calculateQuizResults qs ans).totalQuestions : ℚ)) * 100) ∧
    |((calculateQuizResults qs ans).accuracy : ℚ) -
        (((calculateQuizResults qs ans).correctCount : ℚ) /
          ((calculateQuizResults qs ans).totalQuestions : ℚ)) * 100| ≤ 1/2 :=
  ⟨rfl, jsRound_near _⟩

/-- Witness for C3 at the concrete five-question quiz. -/
theorem accuracy_is_rounded_percent_witness :
    (calculateQuizResults scenarioQuestions scenarioAnswers).accuracy =
      jsRound ((((calculateQuizResults scenarioQuestions scenarioAnswers).correctCount : ℚ) /
        ((calculateQuizResults scenarioQuestions scenarioAnswers).totalQuestions : ℚ)) * 100) ∧
    |((calculateQuizResults scenarioQuestions scenarioAnswers).accuracy : ℚ) -
        (((calculateQuizResults scenarioQuestions scenarioAnswers).correctCount : ℚ) /
          ((calculateQuizResults scenarioQuestions scenarioAnswers).totalQuestions : ℚ)) * 100| ≤ 1/2 :=
  accuracy_is_rounded_percent scenarioQuestions scenarioAnswers (by simp [scenarioQuestions])

/-- C4: when the generated quiz is unavailable — the invoke failed, the
response was unsuccessful, or the question list is absent or empty — the
session ends directly: the outcome is `endSession` with the
`finishStudySession` summary, whose `quizResult` field is `none` and which
carries the topic, time spent, messages and analysis. -/
theorem empty_quiz_ends_without_result (resp : Except String (Option GenerateQuizData))
    (topic : String) (nowMs startMs : Int) (messages : List ChatMessage)
    (analysis : RealTimeAnalysis) (h : quizAvailable resp = false) :
    handleEndStudyClick resp topic nowMs startMs messages analysis =
      EndStudyOutcome.endSession (finishStudySession topic nowMs startMs messages analysis) ∧
    (finishStudySession topic nowMs startMs messages analysis).quizResult = none ∧
    (finishStudySession topic nowMs startMs messages analysis).messages = messages ∧
    (finishStudySession topic nowMs startMs messages analysis).analysis = analysis := by
  refine ⟨?_, rfl, rfl, rfl⟩
  cases resp with
  | error e => rfl
  | ok data =>
    cases data with
    | none => rfl
    | some d =>
      rcases d with ⟨succ, quiz⟩
      cases succ
      · rfl
      · cases quiz with
        | none => rfl
        | some qz =>
          rcases qz with ⟨questions⟩
          cases questions with
          | none => rfl
          | some qs =>
            have hq : qs = [] := by simpa [quizAvailable] using h
            subst hq
            rfl

/-- Witness for C4: a successful response with an empty question list ends
the session without a quiz result. -/
theorem empty_quiz_ends_without_result_witness :
    handleEndStudyClick wEmptyQuizResp "Physics" 120000 0 wMessages wAnalysis =
      EndStudyOutcome.endSession
        (finishStudySession "Physics" 120000 0 wMessages wAnalysis) ∧
    (finishStudySession "Physics" 120000 0 wMessages wAnalysis).quizResult = none ∧
    (finishStudySession "Physics" 120000 0 wMessages wAnalysis).messages = wMessages ∧
    (finishStudySession "Physics" 120000 0 wMessages wAnalysis).analysis = wAnalysis :=
  empty_quiz_ends_without_result wEmptyQuizResp "Physics" 120000 0 wMessages wAnalysis rfl

/-- Membership in the dedup fold: an element is in the result iff it is in
the accumulator or in the remaining input. -/
theorem mem_jsSetDedup_go (l : List String) (acc : List String) (x : String) :
    (x ∈ l.foldl (fun acc y => if y ∈ acc then acc else acc ++ [y]) acc) ↔
      x ∈ acc ∨ x ∈ l := by
  induction l generalizing acc with
  | nil => simp
  | cons y ys ih =>
    simp only [List.foldl_cons, List.mem_cons]
    by_cases hy : y ∈ acc
    · rw [if_pos hy, ih]
      constructor
      · rintro (h | h)
        · exact Or.inl h
        · exact Or.inr (Or.inr h)
      · rintro (h | h | h)
        · exact Or.inl h
        · exact Or.inl (by rw [h]; exact hy)
        · exact Or.inr h
    · rw [if_neg hy, ih]
      simp only [List.mem_append, List.mem_singleton]
      tauto

/-- The dedup fold preserves `Nodup` of the accumulator. -/
theorem nodup_jsSetDedup_go (l : List String) (acc : List String) (h : acc.Nodup) :
    (l.foldl (fun acc y => if y ∈ acc then acc else acc ++ [y]) acc).Nodup := by
  induction l generalizing acc with
  | nil => simpa
  | cons y ys ih =>
    simp only [List.foldl_cons]
    by_cases hy : y ∈ acc
    · rw [if_pos hy]
      exact ih acc h
    · rw [if_neg hy]
      refine ih _ ?_
      rw [List.nodup_append]
      exact ⟨h, List.nodup_singleton y,
        fun a ha hb => hy (by rwa [List.mem_singleton.mp hb] at ha)⟩

/-- `jsSetDedup` keeps exactly the elements of its input. -/
theorem mem_jsSetDedup (l : List String) (x : String) :
    x ∈ jsSetDedup l ↔ x ∈ l := by
  unfold jsSetDedup
  rw [mem_jsSetDedup_go]
  simp

/-- `jsSetDedup` has no duplicates. -/
theorem nodup_jsSetDedup (l : List String) : (jsSetDedup l).Nodup :=
  nodup_jsSetDedup_go l [] List.nodup_nil

/-- C5: on an assistant turn carrying a session analysis, each merged set
holds exactly the union of the previous set and the newly reported one,
without duplicates; and the understanding is overwritten by the reported
value when present (the reported values are the non-empty categorical
labels) and retained otherwise. -/
theorem analysis_merge_union (prev : RealTimeAnalysis) (sa : SessionAnalysisMsg)
    (hu : ∀ u, sa.understanding = some u → u ≠ "") :
    (∀ x, x ∈ (mergeAnalysis prev sa).weakAreas ↔
        x ∈ prev.weakAreas ∨ x ∈ sa.weakAreas.getD []) ∧
    (mergeAnalysis prev sa).weakAreas.Nodup ∧
    (∀ x, x ∈ (mergeAnalysis prev sa).strongAreas ↔
        x ∈ prev.strongAreas ∨ x ∈ sa.strongAreas.getD []) ∧
    (mergeAnalysis prev sa).strongAreas.Nodup ∧
    (∀ x, x ∈ (mergeAnalysis prev sa).topicsCovered ↔
        x ∈ prev.topicsCovered ∨ x ∈ sa.topics.getD []) ∧
    (mergeAnalysis prev sa).topicsCovered.Nodup ∧
    (∀ u, sa.understanding = some u →
        (mergeAnalysis prev sa).currentUnderstanding = u) ∧
    (sa.understanding = none →
        (mergeAnalysis prev sa).currentUnderstanding = prev.currentUnderstanding) := by
  refine ⟨?_, nodup_jsSetDedup _, ?_, nodup_jsSetDedup _, ?_, nodup_jsSetDedup _, ?_, ?_⟩
  · intro x
    rw [show (mergeAnalysis prev sa).weakAreas =
      jsSetDedup (prev.weakAreas ++ sa.weakAreas.getD []) from rfl,
      mem_jsSetDedup, List.mem_append]
  · intro x
    rw [show (mergeAnalysis prev sa).strongAreas =
      jsSetDedup (prev.strongAreas ++ sa.strongAreas.getD []) from rfl,
      mem_jsSetDedup, List.mem_append]
  · intro x
    rw [show (mergeAnalysis prev sa).topicsCovered =
      jsSetDedup (prev.topicsCovered ++ sa.topics.getD []) from rfl,
      mem_jsSetDedup, List.mem_append]
  · intro u hu2
    show jsOrString sa.understanding prev.currentUnderstanding = u
    rw [hu2]
    simp [jsOrString, hu u hu2]
  · intro h0
    show jsOrString sa.understanding prev.currentUnderstanding =
      prev.currentUnderstanding
    rw [h0]
    rfl

/-- Witness for C5: a concrete merge overwrites the understanding with the
newly reported `"good"`. -/
theorem analysis_merge_union_witness :
    (mergeAnalysis wAnalysis wMsg).currentUnderstanding = "good" :=
  (analysis_merge_union wAnalysis wMsg
      (by
        intro u h0
        simp only [wMsg, Option.some.injEq] at h0
        subst h0
        decide)).2.2.2.2.2.2.1 "good" rfl

/-- One assistant turn never removes an element from any analysis set. -/
theorem applyAssistantTurn_mono (prev : RealTimeAnalysis)
    (sa : Option SessionAnalysisMsg) (x : String) :
    (x ∈ prev.weakAreas → x ∈ (applyAssistantTurn prev sa).weakAreas) ∧
    (x ∈ prev.strongAreas → x ∈ (applyAssistantTurn prev sa).strongAreas) ∧
    (x ∈ prev.topicsCovered → x ∈ (applyAssistantTurn prev sa).topicsCovered) := by
  cases sa with
  | none => exact ⟨id, id, id⟩
  | some m =>
    refine ⟨fun h0 => ?_, fun h0 => ?_, fun h0 => ?_⟩
    · exact (mem_jsSetDedup _ _).mpr (List.mem_append.mpr (Or.inl h0))
    · exact (mem_jsSetDedup _ _).mpr (List.mem_append.mpr (Or.inl h0))
    · exact (mem_jsSetDedup _ _).mpr (List.mem_append.mpr (Or.inl h0))

/-- A whole run of assistant turns never removes an element from any
analysis set. -/
theorem applyTurns_mono (init : RealTimeAnalysis)
    (turns : List (Option SessionAnalysisMsg)) (x : String) :
    (x ∈ init.weakAreas → x ∈ (applyTurns init turns).weakAreas) ∧
    (x ∈ init.strongAreas → x ∈ (applyTurns init turns).strongAreas) ∧
    (x ∈ init.topicsCovered → x ∈ (applyTurns init turns).topicsCovered) := by
  induction turns generalizing init with
  | nil => exact ⟨id, id, id⟩
  | cons t ts ih =>
    have hstep := applyAssistantTurn_mono init t x
    have hrest := ih (applyAssistantTurn init t)
    exact ⟨fun h0 => hrest.1 (hstep.1 h0),
      fun h0 => hrest.2.1 (hstep.2.1 h0),
      fun h0 => hrest.2.2 (hstep.2.2 h0)⟩

/-- C6: the analysis sets are monotone — any element present before an
assistant turn, or before a whole sequence of turns, is still present
afterwards. -/
theorem analysis_sets_monotone (init : RealTimeAnalysis)
    (turns : List (Option SessionAnalysisMsg)) (x : String) :
    (∀ prev sa, x ∈ prev.weakAreas → x ∈ (applyAssistantTurn prev sa).weakAreas) ∧
    (∀ prev sa, x ∈ prev.strongAreas → x ∈ (applyAssistantTurn prev sa).strongAreas) ∧
    (∀ prev sa, x ∈ prev.topicsCovered → x ∈ (applyAssistantTurn prev sa).topicsCovered) ∧
    (x ∈ init.weakAreas → x ∈ (applyTurns init turns).weakAreas) ∧
    (x ∈ init.strongAreas → x ∈ (applyTurns init turns).strongAreas) ∧
    (x ∈ init.topicsCovered → x ∈ (applyTurns init turns).topicsCovered) :=
  ⟨fun prev sa => (applyAssistantTurn_mono prev sa x).1,
   fun prev sa => (applyAssistantTurn_mono prev sa x).2.1,
   fun prev sa => (applyAssistantTurn_mono prev sa x).2.2,
   (applyTurns_mono init turns x).1,
   (applyTurns_mono init turns x).2.1,
   (applyTurns_mono init turns x).2.2⟩

/-- Witness for C6: the pre-existing weak area survives a concrete turn. -/
theorem analysis_sets_monotone_witness :
    "algebra" ∈ (applyTurns wAnalysis [some wMsg]).weakAreas :=
  (analysis_sets_monotone wAnalysis [some wMsg] "algebra").2.2.2.1 (by decide)


/-- When the quiz UI is hidden (result shown or no current question), every
event is a no-op. -/
theorem quizStep_hidden (s : QuizState) (e : QuizEvent)
    (hg : s.showResult = true ∨ s.questions.length ≤ s.currentQuestionIndex) :
    quizStep s e = s := by
  unfold quizStep
  rw [if_pos hg]

/-- An accepted answer appends itself and shows the explanation. -/
theorem quizStep_answer_eq (s : QuizState) (a : String)
    (hg : ¬(s.showResult = true ∨ s.questions.length ≤ s.currentQuestionIndex))
    (he : s.showExplanation = false) :
    quizStep s (QuizEvent.answer a) =
      { s with userAnswers := s.userAnswers ++ [a], showExplanation := true } := by
  unfold quizStep
  rw [if_neg hg]
  show (if s.showExplanation = true then s
    else { s with userAnswers := s.userAnswers ++ [a], showExplanation := true }) = _
  rw [he]
  simp

/-- A second answer to the current question is ignored. -/
theorem quizStep_answer_noop (s : QuizState) (a : String)
    (hg : ¬(s.showResult = true ∨ s.questions.length ≤ s.currentQuestionIndex))
    (he : s.showExplanation = true) :
    quizStep s (QuizEvent.answer a) = s := by
  unfold quizStep
  rw [if_neg hg]
  show (if s.showExplanation = true then s
    else { s with userAnswers := s.userAnswers ++ [a], showExplanation := true }) = _
  rw [he]
  simp

/-- Next on a non-final question advances the index. -/
theorem quizStep_next_advance (s : QuizState)
    (hg : ¬(s.showResult = true ∨ s.questions.length ≤ s.currentQuestionIndex))
    (he : s.showExplanation = true)
    (hlast : s.currentQuestionIndex < s.questions.length - 1) :
    quizStep s QuizEvent.next =
      { s with currentQuestionIndex := s.currentQuestionIndex + 1,
               showExplanation := false } := by
  unfold quizStep
  rw [if_neg hg]
  show (if s.showExplanation = true then
      (if s.currentQuestionIndex < s.questions.length - 1 then
        { s with currentQuestionIndex := s.currentQuestionIndex + 1,
                 showExplanation := false }
      else { s with showExplanation := false, showResult := true })
    else s) = _
  rw [he, if_pos (by trivial : (true = true)), if_pos hlast]

/-- Next on the final question shows the results. -/
theorem quizStep_next_finish (s : QuizState)
    (hg : ¬(s.showResult = true ∨ s.questions.length ≤ s.currentQuestionIndex))
    (he : s.showExplanation = true)
    (hlast : ¬ s.currentQuestionIndex < s.questions.length - 1) :
    quizStep s QuizEvent.next =
      { s with showExplanation := false, showResult := true } := by
  unfold quizStep
  rw [if_neg hg]
  show (if s.showExplanation = true then
      (if s.currentQuestionIndex < s.questions.length - 1 then
        { s with currentQuestionIndex := s.currentQuestionIndex + 1,
                 showExplanation := false }
      else { s with showExplanation := false, showResult := true })
    else s) = _
  rw [he, if_pos (by trivial : (true = true)), if_neg hlast]

/-- Next with no explanation on screen is a no-op. -/
theorem quizStep_next_noop (s : QuizState)
    (hg : ¬(s.showResult = true ∨ s.questions.length ≤ s.currentQuestionIndex))
    (he : s.showExplanation = false) :
    quizStep s QuizEvent.next = s := by
  unfold quizStep
  rw [if_neg hg]
  show (if s.showExplanation = true then
      (if s.currentQuestionIndex < s.questions.length - 1 then
        { s with currentQuestionIndex := s.currentQuestionIndex + 1,
                 showExplanation := false }
      else { s with showExplanation := false, showResult := true })
    else s) = _
  rw [he]
  simp

/-- Every quiz-mode step preserves the quiz invariant. -/
theorem quizStep_inv (qs : List QuizQuestion) (s : QuizState) (e : QuizEvent)
    (h : QuizInv qs s) : QuizInv qs (quizStep s e) := by
  obtain ⟨hqs, hle, hrun⟩ := h
  subst hqs
  by_cases hg : s.showResult = true ∨ s.questions.length ≤ s.currentQuestionIndex
  · rw [quizStep_hidden s e hg]
    exact ⟨rfl, hle, hrun⟩
  · have hsr2 : s.showResult = false := by
      rcases Bool.eq_false_or_eq_true s.showResult with h0 | h0
      · exact absurd (Or.inl h0) hg
      · exact h0
    obtain ⟨hix, hlen⟩ := hrun hsr2
    cases e with
    | answer a =>
      by_cases he : s.showExplanation = true
      · rw [quizStep_answer_noop s a hg he]
        exact ⟨rfl, hle, hrun⟩
      · have he2 : s.showExplanation = false := by simpa using he
        rw [quizStep_answer_eq s a hg he2]
        refine ⟨rfl, ?_, fun _ => ⟨hix, ?_⟩⟩
        · simp only [List.length_append, List.length_cons, List.length_nil]
          rw [hlen, he2] at *
          simpa using hix
        · simp only [List.length_append, List.length_cons, List.length_nil]
          rw [hlen, he2]
          simp
    | next =>
      by_cases he : s.showExplanation = true
      · by_cases hlast : s.currentQuestionIndex < s.questions.length - 1
        · rw [quizStep_next_advance s hg he hlast]
          refine ⟨rfl, hle, fun _ => ⟨?_, ?_⟩⟩
          · show s.currentQuestionIndex + 1 < s.questions.length
            omega
          · show s.userAnswers.length = s.currentQuestionIndex + 1 +
              (if false = true then 1 else 0)
            rw [hlen, he]
            simp
        · rw [quizStep_next_finish s hg he hlast]
          refine ⟨rfl, hle, fun hfalse => ?_⟩
          simp at hfalse
      · have he2 : s.showExplanation = false := by simpa using he
        rw [quizStep_next_noop s hg he2]
        exact ⟨rfl, hle, hrun⟩

/-- A whole quiz run satisfies the invariant when the question list is
non-empty. -/
theorem runQuiz_inv (qs : List QuizQuestion) (h : qs ≠ [])
    (events : List QuizEvent) : QuizInv qs (runQuiz qs events) := by
  have hinit : QuizInv qs (initQuizState qs) := by
    refine ⟨rfl, by simp [initQuizState], fun _ => ⟨?_, by simp [initQuizState]⟩⟩
    simpa [initQuizState] using List.length_pos.mpr h
  unfold runQuiz
  suffices hs : ∀ (s : QuizState), QuizInv qs s → QuizInv qs (events.foldl quizStep s) by
    exact hs _ hinit
  induction events with
  | nil => exact fun s hs => hs
  | cons e es ih => exact fun s hs => ih _ (quizStep_inv qs s e hs)

/-- C7: throughout quiz mode the answers never outnumber the questions;
each accepted submission appends exactly the one new answer; and once the
current question has been answered (`showExplanation` set), a further
answer event changes nothing — at most one answer per question. -/
theorem answers_never_exceed_questions (qs : List QuizQuestion) (h : qs ≠ [])
    (events : List QuizEvent) :
    (runQuiz qs events).userAnswers.length ≤ qs.length ∧
    (∀ (s : QuizState) (a : String), s.showResult = false →
        s.currentQuestionIndex < s.questions.length →
        s.showExplanation = false →
        (quizStep s (QuizEvent.answer a)).userAnswers = s.userAnswers ++ [a]) ∧
    (∀ (s : QuizState) (a : String), s.showExplanation = true →
        (quizStep s (QuizEvent.answer a)).userAnswers = s.userAnswers) := by
  refine ⟨(runQuiz_inv qs h events).2.1, ?_, ?_⟩
  · intro s a h1 h2 h3
    rw [quizStep_answer_eq s a (by simp [h1]; omega) h3]
  · intro s a h1
    by_cases hg : s.showResult = true ∨ s.questions.length ≤ s.currentQuestionIndex
    · rw [quizStep_hidden s _ hg]
    · rw [quizStep_answer_noop s a hg h1]

/-- Witness for C7: a one-answer run of the five-question quiz. -/
theorem answers_never_exceed_questions_witness :
    (runQuiz scenarioQuestions
        [QuizEvent.answer "a", QuizEvent.next]).userAnswers.length ≤
      scenarioQuestions.length :=
  (answers_never_exceed_questions scenarioQuestions (by decide)
    [QuizEvent.answer "a", QuizEvent.next]).1

/-- C8: a well-formed approval request whose schoolId / schoolPassword pair
matches no stored school record gets HTTP 401 with `success = false`, and
the backend state — in particular every student record — is unchanged. -/
theorem wrong_credentials_401 (db : Db) (req : ApprovalRequest) (now : String)
    (hact : truthyStr req.action = true) (hsid : truthyStr req.schoolId = true)
    (hpw : truthyStr req.schoolPassword = true)
    (hstid : truthyStr req.studentId = true)
    (hnomatch : ∀ s ∈ db.schools,
      ¬(some s.school_id = req.schoolId ∧ some s.password_hash = req.schoolPassword)) :
    (schoolApprovalHandler true db req now).1.status = 401 ∧
    (schoolApprovalHandler true db req now).1.success = false ∧
    (schoolApprovalHandler true db req now).2 = db := by
  have hfil : db.schools.filter (fun s =>
      some s.school_id = req.schoolId && some s.password_hash = req.schoolPassword) = [] := by
    rw [List.filter_eq_nil_iff]
    intro s hs
    have hn := hnomatch s hs
    simp only [Bool.and_eq_true, decide_eq_true_eq]
    exact fun hc => hn hc
  refine ⟨?_, ?_, ?_⟩ <;>
    simp [schoolApprovalHandler, hact, hsid, hpw, hstid, hfil, maybeSingle]

/-- Witness for C8: a wrong password on the concrete one-school backend. -/
theorem wrong_credentials_401_witness :
    (schoolApprovalHandler true wDb wBadPw "T").1.status = 401 ∧
    (schoolApprovalHandler true wDb wBadPw "T").1.success = false ∧
    (schoolApprovalHandler true wDb wBadPw "T").2 = wDb :=
  wrong_credentials_401 wDb wBadPw "T" (by decide) (by decide) (by decide)
    (by decide) (by decide)

/-- C10: with valid credentials and a student of that school, an approve
request gets 200 `{success: true, status: "approved"}` and the student's
record becomes approved with `approved_at` recorded and `rejection_reason`
cleared; a reject request gets 200 `{success: true, status: "rejected"}`
and the student's record becomes unapproved with the trimmed supplied
reason, defaulting to `"No reason provided"` when none is given.  Students
with other ids keep their records. -/
theorem approval_success_paths (db : Db) (req : ApprovalRequest) (now : String)
    (school : SchoolRec) (student : StudentRec)
    (hact : truthyStr req.action = true) (hsid : truthyStr req.schoolId = true)
    (hpw : truthyStr req.schoolPassword = true)
    (hstid : truthyStr req.studentId = true)
    (hschool : db.schools.filter (fun s =>
      some s.school_id = req.schoolId && some s.password_hash = req.schoolPassword) =
      [school])
    (hstudent : db.students.filter (fun st => some st.id = req.studentId) = [student])
    (hlink : student.school_id = school.id) :
    (req.action = some "approve" →
      (schoolApprovalHandler true db req now).1 =
        { status := 200, success := true, error := none, result := some "approved" } ∧
      { student with
          is_approved := true
          approved_at := some now
          rejection_reason := none } ∈ (schoolApprovalHandler true db req now).2.students ∧
      (∀ st ∈ db.students, ¬ some st.id = req.studentId →
        st ∈ (schoolApprovalHandler true db req now).2.students)) ∧
    (req.action = some "reject" →
      (∀ r, req.rejectionReason = some r → r ≠ "") →
      (schoolApprovalHandler true db req now).1 =
        { status := 200, success := true, error := none, result := some "rejected" } ∧
      { student with
          is_approved := false
          rejection_reason :=
            some (jsTrim (req.rejectionReason.getD "No reason provided")) } ∈
        (schoolApprovalHandler true db req now).2.students ∧
      (∀ st ∈ db.students, ¬ some st.id = req.studentId →
        st ∈ (schoolApprovalHandler true db req now).2.students)) := by
  have hmem : student ∈ db.students ∧ some student.id = req.studentId := by
    have h1 : student ∈ db.students.filter (fun st => some st.id = req.studentId) := by
      rw [hstudent]
      exact List.mem_singleton.mpr rfl
    have h2 := List.mem_filter.mp h1
    exact ⟨h2.1, by simpa using h2.2⟩
  constructor
  · intro hap
    have hact2 : truthyStr (some "approve") = true := hap ▸ hact
    have hval : schoolApprovalHandler true db req now =
        ({ status := 200, success := true, error := none, result := some "approved" },
         { db with students := db.students.map fun st =>
             if some st.id = req.studentId then approveStudent now st else st }) := by
      simp [schoolApprovalHandler, hact, hact2, hsid, hpw, hstid, hschool,
        hstudent, maybeSingle, hlink, hap]
    rw [hval]
    refine ⟨rfl, ?_, ?_⟩
    · exact List.mem_map.mpr ⟨student, hmem.1, by rw [if_pos hmem.2]; rfl⟩
    · intro st hst hne
      exact List.mem_map.mpr ⟨st, hst, by rw [if_neg hne]⟩
  · intro hrej hreason
    have hne : ¬ req.action = some "approve" := by
      rw [hrej]
      simp
    have hres : jsOrString req.rejectionReason "No reason provided" =
        req.rejectionReason.getD "No reason provided" := by
      cases hr : req.rejectionReason with
      | none => rfl
      | some r =>
        simp [jsOrString, hreason r hr]
    have hval : schoolApprovalHandler true db req now =
        ({ status := 200, success := true, error := none, result := some "rejected" },
         { db with students := db.students.map fun st =>
             if some st.id = req.studentId then
               rejectStudent (jsTrim (jsOrString req.rejectionReason "No reason provided")) st
             else st }) := by
      simp [schoolApprovalHandler, hact, hsid, hpw, hstid, hschool, hstudent,
        maybeSingle, hlink, hne]
    rw [hval]
    refine ⟨rfl, ?_, ?_⟩
    · refine List.mem_map.mpr ⟨student, hmem.1, ?_⟩
      rw [if_pos hmem.2, hres]
      rfl
    · intro st hst hne2
      exact List.mem_map.mpr ⟨st, hst, by rw [if_neg hne2]⟩

/-- Witness for C10: approving the concrete student marks it approved with
the timestamp and clears the old rejection reason. -/
theorem approval_success_paths_witness :
    (schoolApprovalHandler true wDb wApprove "T").1 =
      { status := 200, success := true, error := none, result := some "approved" } ∧
    { wStudent with
        is_approved := true
        approved_at := some "T"
        rejection_reason := none } ∈ (schoolApprovalHandler true wDb wApprove "T").2.students ∧
    (∀ st ∈ wDb.students, ¬ some st.id = wApprove.studentId →
      st ∈ (schoolApprovalHandler true wDb wApprove "T").2.students) :=
  (approval_success_paths wDb wApprove "T" wSchool wStudent (by decide) (by decide)
    (by decide) (by decide) (by decide) (by decide) (by decide)).1 rfl
